import Mathlib

/-!
Verification development for the bioreactor simulation model (Model.py).

The state vector holds 14 ordered scalar fields; the input function supplies
15 exogenous scalars per time point.  Real-valued quantities of the program
are embedded as exact rationals; the pH charge-balance uses real powers of 10
and is embedded over the reals.
-/

/-- The 14-component state vector of the model, in the fixed field order
Ng, Nx, Nfa, Ne, Nco, No, Nn, Na, Nb, Nz, Ny, V, Vg, T used throughout
the source. -/
structure StateVec where
  Ng : ℚ
  Nx : ℚ
  Nfa : ℚ
  Ne : ℚ
  Nco : ℚ
  No : ℚ
  Nn : ℚ
  Na : ℚ
  Nb : ℚ
  Nz : ℚ
  Ny : ℚ
  V : ℚ
  Vg : ℚ
  T : ℚ
deriving DecidableEq

/-- The 15-component input vector returned by the caller-supplied input
function, in the fixed order destructured by DEs:
Fg_in, Cg_in, Fco_in, Cco_in, Fo_in, Co_in, Fg_out, Cn_in, Fn_in, Fb_in,
Cb_in, Fm_in, Fout, Tamb, Q. -/
structure InputVec where
  Fg_in : ℚ
  Cg_in : ℚ
  Fco_in : ℚ
  Cco_in : ℚ
  Fo_in : ℚ
  Co_in : ℚ
  Fg_out : ℚ
  Cn_in : ℚ
  Fn_in : ℚ
  Fb_in : ℚ
  Cb_in : ℚ
  Fm_in : ℚ
  Fout : ℚ
  Tamb : ℚ
  Q : ℚ
deriving DecidableEq

/-- One stored element of the `_Xs` history list.  In the source, `outputs()`
with pH disabled returns the array object `self.X` itself, so the stored
element is a reference that later in-place updates of `self.X` (the `+=` in
`step`) change as well; with pH enabled `numpy.append` allocates a fresh
array.  `live` models a stored reference to the live state array, `snap`
a freshly allocated row. -/
inductive HistEntry where
  | live : HistEntry
  | snap : List ℚ → HistEntry
deriving DecidableEq

/-- The model object: current state `X`, the input function, current time,
the pH flag, and the `_Xs` history list. -/
structure Model where
  X : StateVec
  inputs : ℚ → InputVec
  t : ℚ
  pH_calculations : Bool
  Xs : List HistEntry

/-- The fixed 5x5 rate matrix built at construction (with
alpha, PO, gamma, theta, beta = 0.1, 0.1, 1.8, 0.1, 0.1; only
gamma and beta appear in the entries). -/
def rate_matrix : Matrix (Fin 5) (Fin 5) ℚ :=
  !![1, 0, 0, 0, 0;
     0, 0, 0, 1, 0;
     0, 0, 0, 0, 1;
     -6, 4, 7/3, 2, -1.8;
     0, 12, -1, 0, 0.1]

/-- The inverse of the rate matrix (`numpy.linalg.inv(rate_matrix)`),
computed once at construction; written via the standard adjugate formula,
and proved below to agree with the Mathlib matrix inverse. -/
def rate_matrix_inv : Matrix (Fin 5) (Fin 5) ℚ :=
  (rate_matrix.det)⁻¹ • rate_matrix.adjugate

/-- The 100 evenly spaced pH grid candidates `numpy.linspace(0, 14, 100)`:
the k-th grid point is 14*k/99. -/
def pHs (k : Fin 100) : ℚ := 14 * (k.val : ℚ) / 99

/-- The net ionic charge-balance function from `calculate_pH`, for fixed
concentrations C_fa, C_a, C_b of the weak diprotic acid, the strong acid and
the strong base, evaluated at a pH guess.  The five equilibrium constants
are fixed powers of 10. -/
noncomputable def chargeBalance (C_fa C_a C_b : ℝ) (pH_guess : ℝ) : ℝ :=
  let K_fa1 := Real.rpow 10 (-3.03)
  let K_fa2 := Real.rpow 10 4.44
  let K_a := Real.rpow 10 8.08
  let K_b := Real.rpow 10 0.56
  let K_w := Real.rpow 10 (-14)
  let Ch := Real.rpow 10 (-pH_guess)
  let C_fa_minus := K_fa1 * C_fa / (K_fa1 + Ch)
  let C_fa_minus2 := K_fa2 * C_fa_minus / (K_fa2 + Ch)
  let C_cl_minus := K_a * C_a / (K_a + Ch)
  let C_oh_minus := K_w / Ch
  let C_na_plus := K_b * C_b / (K_b + C_oh_minus)
  Ch + C_na_plus - C_fa_minus - C_fa_minus2 - C_cl_minus - C_oh_minus

/-- An index minimising the absolute value of f over the grid
(`numpy.argmin(abs(CBs))`). -/
noncomputable def argminAbs (f : Fin 100 → ℝ) : Fin 100 :=
  Classical.choose
    (Finset.exists_min_image Finset.univ (fun j => |f j|) ⟨0, Finset.mem_univ 0⟩)

/-- The charge-balance values at the 100 grid candidates
(`CBs = charge_balance(pHs)`), with the concentrations C_fa = Nfa/V,
C_a = Na/V, C_b = Nb/V read from the model state. -/
noncomputable def CBs (m : Model) : Fin 100 → ℝ := fun k =>
  chargeBalance ((m.X.Nfa / m.X.V : ℚ) : ℝ) ((m.X.Na / m.X.V : ℚ) : ℝ)
    ((m.X.Nb / m.X.V : ℚ) : ℝ) ((pHs k : ℚ) : ℝ)

/-- The method calculate_pH: returns the grid candidate whose charge-balance residual
has minimal absolute value (`pH = pHs[numpy.argmin(abs(CBs))]`).  The
residual-tolerance test in the source only prints a diagnostic and does not
change the returned value. -/
noncomputable def Model.calculate_pH (m : Model) : ℚ :=
  pHs (argminAbs (CBs m))

/-- The state vector as an ordered row, in the fixed 14-field order. -/
def StateVec.toList (X : StateVec) : List ℚ :=
  [X.Ng, X.Nx, X.Nfa, X.Ne, X.Nco, X.No, X.Nn, X.Na, X.Nb, X.Nz, X.Ny,
   X.V, X.Vg, X.T]

/-- The method outputs(): with pH enabled, `numpy.append(self.X, pH)` allocates a
fresh row holding the state plus the pH; with pH disabled the method returns
the live state array itself. -/
noncomputable def Model.outputs (m : Model) : HistEntry :=
  if m.pH_calculations then HistEntry.snap (m.X.toList ++ [m.calculate_pH])
  else HistEntry.live

/-- The scalar contents of the array returned by `outputs()` at the moment
it is returned. -/
noncomputable def Model.outputsVal (m : Model) : List ℚ :=
  if m.pH_calculations then m.X.toList ++ [m.calculate_pH] else m.X.toList

/-- Reading one stored history element at query time: a stored reference to
the live state array reads as the current state. -/
def readEntry (m : Model) : HistEntry → List ℚ
  | HistEntry.live => m.X.toList
  | HistEntry.snap r => r

/-- The method get_Xs(): materialises the stored history rows into a table, reading
each stored array at call time. -/
def Model.get_Xs (m : Model) : List (List ℚ) :=
  m.Xs.map (readEntry m)

/-- Model construction: stores state, input function, time and flag, and
records the first history entry `self._Xs = [self.outputs()]`. -/
noncomputable def mkModel (X0 : StateVec) (inputs : ℚ → InputVec)
    (t : ℚ) (pH_calculations : Bool) : Model :=
  let m0 : Model := ⟨X0, inputs, t, pH_calculations, []⟩
  { m0 with Xs := [m0.outputs] }

/-- The constant term of the enzyme-pool turnover (`second_increase`). -/
def second_increase : ℚ := 2/46/120*3.2

/-- The term of the enzyme-pool turnover proportional to Cy
(`first_increase`). -/
def first_increase (Cy : ℚ) : ℚ := (0.6 / 46 / 25 * 4) * Cy * 1.8

/-- The decreasing enzyme-pool term proportional to Cz (`decrease`). -/
def decrease (Cz : ℚ) : ℚ := (0.6 / 46 / 40*3) * Cz/3

/-- Enzyme-pool-Z turnover: `decrease + second_increase if Cz > 0 else 0`. -/
def rZ (Cz : ℚ) : ℚ := if Cz > 0 then decrease Cz + second_increase else 0

/-- Enzyme-pool-Y turnover: `first_increase + decrease if Cy > 0 else 0`. -/
def rY (Cz Cy : ℚ) : ℚ := if Cy > 0 then first_increase Cy + decrease Cz else 0

/-- The method DEs(t): the differential equations of the model.  Every state
component is read through `max 0` (the destructuring on line 79 of the
source); the stored state itself is left untouched.  Division is the total
rational division (the source assumes V > 0 and Vg > 0). -/
def Model.DEs (m : Model) (t : ℚ) : StateVec :=
  let Ng := max 0 m.X.Ng
  let Nx := max 0 m.X.Nx
  let Nfa := max 0 m.X.Nfa
  let Ne := max 0 m.X.Ne
  let Nco := max 0 m.X.Nco
  let No := max 0 m.X.No
  let Nn := max 0 m.X.Nn
  let Na := max 0 m.X.Na
  let Nb := max 0 m.X.Nb
  let Nz := max 0 m.X.Nz
  let Ny := max 0 m.X.Ny
  let V := max 0 m.X.V
  let Vg := max 0 m.X.Vg
  let T := max 0 m.X.T
  let u := m.inputs t
  let alpha : ℚ := 0.1
  let theta : ℚ := 0.1
  let delta : ℚ := 0.2
  let Cg := Ng / V
  let Cx := Nx / V
  let Cfa := Nfa / V
  let Ce := Ne / V
  let Cn := Nn / V
  let Ca := Na / V
  let Cb := Nb / V
  let Cz := Nz / V
  let Cy := Ny / V
  let Cco := Nco / Vg
  let Co := No / Vg
  let rFAf := 15e-3 * (Cg / (1e-2 + Cg)) - 0.5 * rZ Cz
  let rEf := (second_increase + rY Cz Cy) * (Cg / (1e-5 + Cg))
  let theta_calc := theta * (Cg / (1e-3 + Cg))
  let sol := rate_matrix_inv.mulVec ![rFAf, rEf, 8e-5, theta_calc, 0]
  let rFAf := sol 0
  let rTCA := sol 1
  let rResp := sol 2
  let rEf := sol 3
  let rbio := sol 4
  let rG := -rFAf - rTCA - rEf - rbio
  let rX := 6 * rbio
  let rFA := 2 * (rFAf + 0.5 * rZ Cz)
  let rE := 2 * (rEf - rZ Cz) * (Cg / (1e-5 + Cg))
  let rCO := -2 * rFAf + 6 * rTCA + 2 * rEf + alpha * rbio
  let rO := -0.5 * rResp
  let dNg := u.Fg_in * u.Cg_in - u.Fout * Cg + rG * Cx * V
  let dNx := rX * Cx * V
  let dNfa := -u.Fout * Cfa + rFA * Cx * V
  let dNe := -u.Fout * Ce + rE * Cx * V
  let dNco := u.Fco_in * u.Cco_in - u.Fg_out * Cco + rCO * Cx * V
  let dNo := u.Fo_in * u.Co_in - u.Fg_out * Co - rO * Cx * V
  let dNn := u.Fn_in * u.Cn_in - u.Fout * Cn - delta * rX * Cx * V
  let dNa := -u.Fout * Ca
  let dNb := u.Fb_in * u.Cb_in - u.Fout * Cb
  let dNz := -190 * rZ Cz * Cx * V
  let dNy := -95 * rY Cz Cy * Cx * V
  let dV := u.Fg_in + u.Fn_in + u.Fb_in + u.Fm_in - u.Fout
  let dVg := u.Fco_in + u.Fo_in - u.Fg_out
  let dT := 4.5 * u.Q - 0.25 * (T - u.Tamb)
  ⟨dNg, dNx, dNfa, dNe, dNco, dNo, dNn, dNa, dNb, dNz, dNy, dV, dVg, dT⟩

/-- The vectorised in-place update `self.X += numpy.array(dX)*dt`,
componentwise X + dX*dt; no clamping is applied to the written values. -/
def eulerUpdate (X dX : StateVec) (dt : ℚ) : StateVec :=
  ⟨X.Ng + dX.Ng * dt, X.Nx + dX.Nx * dt, X.Nfa + dX.Nfa * dt,
   X.Ne + dX.Ne * dt, X.Nco + dX.Nco * dt, X.No + dX.No * dt,
   X.Nn + dX.Nn * dt, X.Na + dX.Na * dt, X.Nb + dX.Nb * dt,
   X.Nz + dX.Nz * dt, X.Ny + dX.Ny * dt, X.V + dX.V * dt,
   X.Vg + dX.Vg * dt, X.T + dX.T * dt⟩

/-- The method step(dt): first advances the time (`self.t += dt`), then evaluates
`DEs` at the already advanced time with the not yet updated state, updates
the state in place, and appends `outputs()` to the history. -/
noncomputable def Model.step (m : Model) (dt : ℚ) : Model :=
  let t' := m.t + dt
  let dX := m.DEs t'
  let m' : Model := { m with t := t', X := eulerUpdate m.X dX dt }
  { m' with Xs := m'.Xs ++ [m'.outputs] }

/-- Repeated stepping with the given list of step sizes. -/
noncomputable def stepMany (m : Model) (dts : List ℚ) : Model :=
  dts.foldl Model.step m

/-- Componentwise clamping of a state vector to max(0, value). -/
def clampX (X : StateVec) : StateVec :=
  ⟨max 0 X.Ng, max 0 X.Nx, max 0 X.Nfa, max 0 X.Ne, max 0 X.Nco,
   max 0 X.No, max 0 X.Nn, max 0 X.Na, max 0 X.Nb, max 0 X.Nz,
   max 0 X.Ny, max 0 X.V, max 0 X.Vg, max 0 X.T⟩

/-- All flow-rate components of an input function, and the heat input, are
zero at all times (the feed concentrations and the ambient temperature stay
arbitrary). -/
def ZeroFlows (inputs : ℚ → InputVec) : Prop :=
  ∀ t : ℚ, (inputs t).Fg_in = 0 ∧ (inputs t).Fco_in = 0 ∧ (inputs t).Fo_in = 0 ∧
    (inputs t).Fg_out = 0 ∧ (inputs t).Fn_in = 0 ∧ (inputs t).Fb_in = 0 ∧
    (inputs t).Fm_in = 0 ∧ (inputs t).Fout = 0 ∧ (inputs t).Q = 0

/-- A concrete initial state: one litre of liquid and of gas headspace,
every molar amount and the temperature zero. -/
def XZ : StateVec := ⟨0, 0, 0, 0, 0, 0, 0, 0, 0, 0, 0, 1, 1, 0⟩

/-- The all-zero input function. -/
def inpZero : ℚ → InputVec := fun _ => ⟨0, 0, 0, 0, 0, 0, 0, 0, 0, 0, 0, 0, 0, 0, 0⟩

/-- A time-dependent input function: the liquid inflow rate equals the
current time, the glucose feed concentration is 1, everything else is 0. -/
def inpC1 : ℚ → InputVec := fun t => ⟨t, 1, 0, 0, 0, 0, 0, 0, 0, 0, 0, 0, 0, 0, 0⟩

/-- A model fed by the time-dependent input function. -/
noncomputable def mC1 : Model := mkModel XZ inpC1 0 false

/-- A constant input function: liquid inflow rate 1 with glucose feed
concentration 1, everything else 0. -/
def inpC2 : ℚ → InputVec := fun _ => ⟨1, 1, 0, 0, 0, 0, 0, 0, 0, 0, 0, 0, 0, 0, 0⟩

/-- A model with pH calculations disabled and a nonzero liquid inflow. -/
noncomputable def mC2 : Model := mkModel XZ inpC2 0 false

/-- A concrete state holding a negative fumaric-acid amount. -/
def XC7 : StateVec := ⟨0, 0, -1, 0, 0, 0, 0, 0, 0, 0, 0, 1, 1, 0⟩

/-- A model whose stored state holds a negative component. -/
noncomputable def mC7 : Model := mkModel XC7 inpZero 0 false

/-- A concrete state with a negative stored temperature. -/
def XC5 : StateVec := ⟨0, 0, 0, 0, 0, 0, 0, 0, 0, 0, 0, 1, 1, -1⟩

/-- Zero flows and heat input, ambient temperature 1. -/
def inpC5 : ℚ → InputVec := fun _ => ⟨0, 0, 0, 0, 0, 0, 0, 0, 0, 0, 0, 0, 0, 1, 0⟩

/-- A zero-flow model with a negative stored temperature. -/
noncomputable def mC5 : Model := mkModel XC5 inpC5 0 false

/-- A zero-flow model with state XZ, used to instantiate the zero-flow
invariants. -/
noncomputable def mC5w : Model := mkModel XZ inpZero 0 false

/-- A pH-enabled model with nonnegative amounts and unit volume. -/
noncomputable def mC4 : Model := mkModel XZ inpZero 0 true

/-- A concrete nondegenerate state for the pH solver. -/
def XC8 : StateVec := ⟨3, 1, 2, 0, 0, 0, 0, 5, 4, 0, 0, 2, 1, 300⟩

/-- A pH-enabled model with nonzero volume. -/
noncomputable def mC8 : Model := mkModel XC8 inpZero 0 true

/-- Two models that agree on Nfa, Na, Nb and V but differ in the other state
components, the time and the input function. -/
noncomputable def m10a : Model := mkModel ⟨7, 1, 1, 0, 0, 0, 0, 2, 3, 0, 0, 2, 1, 290⟩ inpZero 0 true

/-- Companion model to m10a: same Nfa, Na, Nb, V, different elsewhere. -/
noncomputable def m10b : Model := mkModel ⟨0, 5, 1, 4, 2, 0, 9, 2, 3, 1, 1, 2, 6, 310⟩ inpC2 3 false

theorem rate_matrix_inv_eq_inv : rate_matrix_inv = rate_matrix⁻¹ := by
  rw [rate_matrix_inv, Matrix.inv_def, Ring.inverse_eq_inv]

theorem rate_matrix_mul_explicit :
    rate_matrix *
      !![1, 0, 0, 0, 0;
         3/16, -1/16, 47/960, 1/32, 7/96;
         9/4, -3/4, 11/16, 3/8, -1/8;
         0, 1, 0, 0, 0;
         0, 0, 1, 0, 0] = 1 := by
  ext i j
  fin_cases i <;> fin_cases j <;>
    simp [rate_matrix, Matrix.mul_apply, Fin.sum_univ_five, Matrix.one_apply,
      Matrix.vecHead, Matrix.vecTail] <;>
    norm_num

theorem rate_det_isUnit : IsUnit rate_matrix.det :=
  Matrix.isUnit_det_of_right_inverse rate_matrix_mul_explicit

theorem rate_mul_inv : rate_matrix * rate_matrix_inv = 1 := by
  rw [rate_matrix_inv_eq_inv]
  exact Matrix.mul_nonsing_inv _ rate_det_isUnit

theorem argminAbs_le (f : Fin 100 → ℝ) (j : Fin 100) :
    |f (argminAbs f)| ≤ |f j| := by
  have h := Classical.choose_spec
    (Finset.exists_min_image Finset.univ (fun j => |f j|) ⟨0, Finset.mem_univ 0⟩)
  exact h.2 j (Finset.mem_univ j)

theorem pHs_nonneg (k : Fin 100) : 0 ≤ pHs k := by
  unfold pHs
  positivity

theorem pHs_le (k : Fin 100) : pHs k ≤ 14 := by
  unfold pHs
  rw [div_le_iff₀ (by norm_num : (0 : ℚ) < 99)]
  have hk : (k.val : ℚ) ≤ 99 := by
    exact_mod_cast Nat.le_of_lt_succ k.isLt
  linarith

theorem clamp_idem (x : ℚ) : max 0 (max 0 x) = max 0 x := by
  rw [← max_assoc, max_self]

/-- Claim C3: for every 5-element right-hand-side vector, multiplying the
solution `rate_matrix_inv *ᵥ RHS` of the rate-network solve back by the
rate matrix returns exactly the right-hand side (round-trip of the linear
system, exact over the rationals). -/
theorem rate_solve_roundtrip (RHS : Fin 5 → ℚ) :
    rate_matrix.mulVec (rate_matrix_inv.mulVec RHS) = RHS := by
  rw [Matrix.mulVec_mulVec, rate_mul_inv, Matrix.one_mulVec]

/-- Claim C9: the fixed 5x5 rate matrix has nonzero determinant, so the
inversion at construction succeeds: the computed inverse is a genuine right
inverse and the singular-matrix failure branch is unreachable. -/
theorem rate_matrix_nonsingular :
    rate_matrix.det ≠ 0 ∧ rate_matrix * rate_matrix_inv = 1 :=
  ⟨rate_det_isUnit.ne_zero, rate_mul_inv⟩

/-- Claim C4: for a state with positive volume and nonnegative Nfa, Na, Nb,
`calculate_pH` returns one of the 100 evenly spaced grid points — hence a
value in [0, 14] — and that grid point minimises the absolute value of the
charge-balance function over the grid. -/
theorem calculate_pH_grid_bound (m : Model) (hV : 0 < m.X.V)
    (hfa : 0 ≤ m.X.Nfa) (ha : 0 ≤ m.X.Na) (hb : 0 ≤ m.X.Nb) :
    (∃ k : Fin 100, m.calculate_pH = pHs k ∧
      ∀ j : Fin 100, |CBs m k| ≤ |CBs m j|)
    ∧ 0 ≤ m.calculate_pH ∧ m.calculate_pH ≤ 14 := by
  refine ⟨⟨argminAbs (CBs m), rfl, fun j => argminAbs_le (CBs m) j⟩, ?_, ?_⟩
  · exact pHs_nonneg (argminAbs (CBs m))
  · exact pHs_le (argminAbs (CBs m))

theorem calculate_pH_grid_bound_witness :
    0 ≤ mC4.calculate_pH ∧ mC4.calculate_pH ≤ 14 :=
  (calculate_pH_grid_bound mC4 (by decide) (by decide) (by decide) (by decide)).2

/-- Claim C8: for every state with nonzero volume, `calculate_pH` returns a
result — the grid candidate with minimal absolute charge-balance residual —
no matter how large that residual is: the tolerance test only emits a
diagnostic and does not change the returned value. -/
theorem calculate_pH_total_best (m : Model) (hV : m.X.V ≠ 0) :
    ∃ k : Fin 100, m.calculate_pH = pHs k ∧
      ∀ j : Fin 100, |CBs m k| ≤ |CBs m j| :=
  ⟨argminAbs (CBs m), rfl, fun j => argminAbs_le (CBs m) j⟩

theorem calculate_pH_total_best_witness :
    ∃ k : Fin 100, mC8.calculate_pH = pHs k ∧
      ∀ j : Fin 100, |CBs mC8 k| ≤ |CBs mC8 j| :=
  calculate_pH_total_best mC8 (by decide)

/-- Claim C10: `calculate_pH` reads only Nfa, Na, Nb and V: two model states
that agree on these four components produce the same pH, whatever the other
ten state components, the time, the pH flag, the input function or the
history are. -/
theorem calculate_pH_noninterference (m1 m2 : Model)
    (hfa : m1.X.Nfa = m2.X.Nfa) (ha : m1.X.Na = m2.X.Na)
    (hb : m1.X.Nb = m2.X.Nb) (hV : m1.X.V = m2.X.V) (hVne : m1.X.V ≠ 0) :
    m1.calculate_pH = m2.calculate_pH := by
  unfold Model.calculate_pH CBs
  rw [hfa, ha, hb, hV]

theorem calculate_pH_noninterference_witness :
    m10a.calculate_pH = m10b.calculate_pH :=
  calculate_pH_noninterference m10a m10b rfl rfl rfl rfl (by decide)

/-- Claim C6: with Cz = 0 and Cy = 0 the enzyme-pool turnover rates rZ and
rY both evaluate to exactly 0; with Cz > 0 and Cy = 0, rZ is nonzero while
rY is exactly 0. -/
theorem kinetic_switching :
    rZ 0 = 0 ∧ rY 0 0 = 0 ∧
      ∀ Cz : ℚ, 0 < Cz → rZ Cz ≠ 0 ∧ rY Cz 0 = 0 := by
  refine ⟨by simp [rZ], by simp [rY], fun Cz hCz => ⟨?_, by simp [rY]⟩⟩
  have h1 : 0 < decrease Cz := by
    have hc : (0 : ℚ) < 0.6 / 46 / 40 * 3 := by norm_num
    unfold decrease
    exact div_pos (mul_pos hc hCz) (by norm_num)
  have h2 : 0 < second_increase := by norm_num [second_increase]
  simp only [rZ, if_pos hCz]
  exact (add_pos h1 h2).ne'

theorem kinetic_switching_witness : rZ 1 ≠ 0 ∧ rY 1 0 = 0 :=
  kinetic_switching.2.2 1 (by norm_num)

/-- Claim C1 fails on the code: `step` advances `self.t` before calling
`DEs(self.t)`, so the derivative is evaluated at the post-update time
t_before + dt (with the pre-update state).  With the time-dependent input
function inpC1 the claimed identity
X_after = X_before + DEs(t_before)·dt is violated at the glucose component:
the code yields Ng_after = 1 while the claim predicts 0. -/
theorem step_pre_time_counterexample :
    (mC1.step 1).X.Ng ≠ mC1.X.Ng + (mC1.DEs mC1.t).Ng * 1 := by
  norm_num [Model.step, Model.DEs, mkModel, eulerUpdate, mC1, XZ, inpC1,
    rZ, rY, first_increase, second_increase, decrease, max_def]

/-- Claim C1 (amended): for every model state and every dt, `step(dt)`
yields t_after = t_before + dt and updates the state componentwise as
X_after = X_before + DEs(t_before + dt)·dt: the derivative is evaluated at
the post-update time and the pre-update state. -/
theorem step_euler_post_time (m : Model) (dt : ℚ) :
    (m.step dt).t = m.t + dt ∧
      (m.step dt).X = eulerUpdate m.X (m.DEs (m.t + dt)) dt :=
  ⟨rfl, rfl⟩

/-- Claim C2 fails on the code: with pH disabled, every `_Xs` entry is the
array object `self.X` itself and the in-place `+=` of `step` mutates it, so
after one step `get_Xs()` returns two identical rows equal to the
post-step state; row 0 no longer equals the outputs computed at
construction time. -/
theorem history_rows_alias_live_state :
    (mC2.step 1).get_Xs =
        [[1, 0, 0, 0, 0, 0, 0, 0, 0, 0, 0, 2, 1, 0],
         [1, 0, 0, 0, 0, 0, 0, 0, 0, 0, 0, 2, 1, 0]]
      ∧ mC2.outputsVal = [0, 0, 0, 0, 0, 0, 0, 0, 0, 0, 0, 1, 1, 0]
      ∧ (mC2.step 1).get_Xs.head? ≠ some mC2.outputsVal := by
  refine ⟨?_, ?_, ?_⟩ <;>
    norm_num [Model.step, Model.DEs, Model.get_Xs, Model.outputs,
      Model.outputsVal, readEntry, StateVec.toList, mkModel, eulerUpdate,
      mC2, XZ, inpC2, rZ, rY, first_increase, second_increase, decrease,
      max_def]

theorem DEs_V_zero (m : Model) (h : ZeroFlows m.inputs) (t : ℚ) :
    (m.DEs t).V = 0 := by
  obtain ⟨h1, h2, h3, h4, h5, h6, h7, h8, h9⟩ := h t
  simp [Model.DEs, h1, h5, h6, h7, h8]

theorem DEs_Vg_zero (m : Model) (h : ZeroFlows m.inputs) (t : ℚ) :
    (m.DEs t).Vg = 0 := by
  obtain ⟨h1, h2, h3, h4, h5, h6, h7, h8, h9⟩ := h t
  simp [Model.DEs, h2, h3, h4]

theorem step_inputs (m : Model) (dt : ℚ) : (m.step dt).inputs = m.inputs :=
  rfl

theorem step_V_invariant (m : Model) (h : ZeroFlows m.inputs) (dt : ℚ) :
    (m.step dt).X.V = m.X.V ∧ (m.step dt).X.Vg = m.X.Vg := by
  have hV := DEs_V_zero m h (m.t + dt)
  have hVg := DEs_Vg_zero m h (m.t + dt)
  constructor
  · show (eulerUpdate m.X (m.DEs (m.t + dt)) dt).V = m.X.V
    rw [eulerUpdate, hV]
    ring
  · show (eulerUpdate m.X (m.DEs (m.t + dt)) dt).Vg = m.X.Vg
    rw [eulerUpdate, hVg]
    ring

theorem stepMany_V_invariant (dts : List ℚ) (m : Model)
    (h : ZeroFlows m.inputs) :
    (stepMany m dts).X.V = m.X.V ∧ (stepMany m dts).X.Vg = m.X.Vg := by
  induction dts generalizing m with
  | nil => exact ⟨rfl, rfl⟩
  | cons dt dts ih =>
    have hstep := step_V_invariant m h dt
    have hrest := ih (m.step dt) h
    exact ⟨hrest.1.trans hstep.1, hrest.2.trans hstep.2⟩

/-- Claim C5 fails on the code as stated: `DEs` clamps the stored
temperature to max(0, T) before use, so for a zero-flow model with a
negative stored temperature the temperature derivative differs from
-0.25·(T − Tamb): the code yields 0.25 while the claim predicts 0.5. -/
theorem zero_flow_temp_clamp_counterexample :
    ZeroFlows mC5.inputs ∧
      (mC5.DEs 0).T ≠ -0.25 * (mC5.X.T - (mC5.inputs 0).Tamb) := by
  refine ⟨fun t => ⟨rfl, rfl, rfl, rfl, rfl, rfl, rfl, rfl, rfl⟩, ?_⟩
  norm_num [Model.DEs, mkModel, mC5, XC5, inpC5, max_def]

/-- Claim C5 (amended): for an input function whose flow-rate components and
heat input are zero at all times, after any number of steps the liquid and
gas volumes equal their initial values exactly; and whenever the stored
temperature is nonnegative the temperature derivative returned by DEs
equals -0.25·(T − Tamb), so temperature decays toward ambient over repeated
steps. -/
theorem zero_flow_invariants (m : Model) (h : ZeroFlows m.inputs) :
    (∀ dts : List ℚ,
        (stepMany m dts).X.V = m.X.V ∧ (stepMany m dts).X.Vg = m.X.Vg)
    ∧ ∀ t : ℚ, 0 ≤ m.X.T →
        (m.DEs t).T = -0.25 * (m.X.T - (m.inputs t).Tamb) := by
  constructor
  · exact fun dts => stepMany_V_invariant dts m h
  · intro t hT
    obtain ⟨h1, h2, h3, h4, h5, h6, h7, h8, h9⟩ := h t
    simp [Model.DEs, h9, max_eq_right hT]

theorem zero_flow_invariants_witness :
    ((stepMany mC5w [1, 1]).X.V = mC5w.X.V ∧
        (stepMany mC5w [1, 1]).X.Vg = mC5w.X.Vg)
      ∧ (mC5w.DEs 0).T = -0.25 * (mC5w.X.T - (mC5w.inputs 0).Tamb) := by
  have H := zero_flow_invariants mC5w
    (fun t => ⟨rfl, rfl, rfl, rfl, rfl, rfl, rfl, rfl, rfl⟩)
  exact ⟨H.1 [1, 1], H.2 0 (by decide)⟩

/-- Claim C7: `DEs` reads the stored state only through max(0, value) — its
result on any state equals its result on the componentwise clamped state —
while neither the state, the time nor the history is changed by evaluating
it: the subsequent write-back of `step` uses the raw, unclamped state, so a
negative stored component whose derivative vanishes stays negative. -/
theorem DEs_clamp_read_no_write (m : Model) (t dt : ℚ) :
    m.DEs t = Model.DEs { m with X := clampX m.X } t
    ∧ (m.step dt).X = eulerUpdate m.X (m.DEs (m.t + dt)) dt
    ∧ (m.X.Nfa < 0 → (m.DEs (m.t + dt)).Nfa = 0 →
        (m.step dt).X.Nfa < 0) := by
  refine ⟨?_, rfl, fun hneg hz => ?_⟩
  · simp [Model.DEs, clampX, clamp_idem]
  · have hX : (m.step dt).X.Nfa = m.X.Nfa + (m.DEs (m.t + dt)).Nfa * dt := rfl
    rw [hX, hz]
    simpa using hneg

theorem DEs_clamp_read_no_write_witness :
    mC7.X.Nfa < 0 ∧ (mC7.step 1).X.Nfa < 0 := by
  have H := DEs_clamp_read_no_write mC7 0 1
  have hneg : mC7.X.Nfa < 0 := by decide
  have hz : (mC7.DEs (mC7.t + 1)).Nfa = 0 := by
    norm_num [Model.DEs, mkModel, mC7, XC7, inpZero, rZ, rY,
      first_increase, second_increase, decrease, max_def]
  exact ⟨hneg, H.2.2 hneg hz⟩
